import Mathlib

/-!
Shallow embedding of the `construction` Django application
(`construction/views.py`, `construction/models.py`, `construction/aws_utils.py`).

Modelling conventions:
* `request.POST.get(k)` is an `Option String` (`none` when the key is absent).
* A `Project` row mirrors `models.Project`: all form-carried columns are
  NOT NULL text columns at the database level (CharField/TextField/DateField/
  DecimalField with `null=False`), so we store them as `String` in a row and
  creating/saving a row from a `none` value raises `IntegrityError`.
  Crucially, `views.project_create` calls `Project.objects.create(status=..., ...)`
  passing every field explicitly; Django applies a field default (`'Planning'`
  for `status`, `'Medium'` for `priority`) only when the keyword is *absent*,
  never when the passed value is `None`, so an omitted form field reaches the
  database as NULL and the insert fails.
* `created_at` (`auto_now_add`) and `updated_at` (`auto_now`) are modelled with
  a logical clock `Store.clock` that strictly increases at every row write.
* Calls to AWS (CloudWatch, S3, SES, SNS) are recorded as `Effect`s in the
  order the view performs them; an `AwsEnv` oracle decides whether an S3
  upload succeeds and what presigned URL is produced.
-/

namespace Construction

/-- A user as the views see `request.user`: primary key, username, email and
the `login_required` authentication flag. -/
structure UserRec where
  id : Nat
  username : String
  email : String
  isAuthenticated : Bool
deriving Repr, DecidableEq

/-- A persisted `construction_project` row (`models.Project`). Text-valued
columns are NOT NULL, `document` is nullable (`blank=True, null=True`). -/
structure Project where
  id : Nat
  name : String
  description : String
  location : String
  start_date : String
  end_date : String
  budget : String
  status : String
  priority : String
  manager : Nat
  document : Option String
  created_at : Nat
  updated_at : Nat
deriving Repr, DecidableEq

/-- The database: the project table, the next auto-increment primary key and
the logical clock used for `auto_now_add` / `auto_now` timestamps. -/
structure Store where
  projects : List Project
  nextId : Nat
  clock : Nat
deriving Repr, DecidableEq

/-- Database well-formedness: primary keys are below the auto-increment
counter and timestamps are below the clock. -/
def Store.WF (s : Store) : Prop :=
  ∀ p ∈ s.projects, p.id < s.nextId ∧ p.created_at < s.clock ∧ p.updated_at < s.clock

/-- The POST payload of the create/detail forms; `none` models an absent key
(`request.POST.get` returning `None`). -/
structure PostForm where
  name : Option String
  description : Option String
  location : Option String
  start_date : Option String
  end_date : Option String
  budget : Option String
  status : Option String
  priority : Option String
  action : Option String
deriving Repr, DecidableEq

/-- A fully populated form, as submitted by the rendered HTML pages. -/
def fullForm (n d l sd ed b st pr : String) (act : Option String) : PostForm :=
  { name := some n, description := some d, location := some l,
    start_date := some sd, end_date := some ed, budget := some b,
    status := some st, priority := some pr, action := act }

/-- An uploaded file (`request.FILES.get('document')`): original client-side
name and opaque content. -/
structure UploadedFile where
  name : String
  content : String
deriving Repr, DecidableEq

/-- HTTP method of the request. -/
inductive Method where
  | get
  | post
deriving Repr, DecidableEq

/-- One observable call to an AWS collaborator, in program order. The
`projectName` of a file-upload log is an `Option` because in the update view
`project.name` may have just been assigned `None` from a missing form key. -/
inductive Effect where
  | cwActivity (activity subject actor : String)
  | cwFileUpload (filename actor : String) (projectName : Option String)
  | s3Upload (key : String) (ok : Bool)
  | sesEmail (toAddr subject : String)
  | snsPublish (topicArn message : String)
  | s3GetUrl (key : String)
deriving Repr, DecidableEq

/-- Oracle for the AWS side: whether `S3FileManager.upload_file` succeeds for
a given key, and what `get_file_url` returns. -/
structure AwsEnv where
  s3UploadOk : String → Bool
  fileUrl : String → Option String
deriving Inhabited

/-- The Django settings the views read. -/
structure Settings where
  senderEmail : String
  snsTopicArn : String
deriving Repr, DecidableEq

/-- `Project.objects.get(id=project_id)` / `get_object_or_404` lookup. -/
def findProject (s : Store) (pid : Nat) : Option Project :=
  s.projects.find? (fun p => p.id = pid)

/-- The S3 key built by both views:
`f"project_documents/{project.id}_{document.name}"`. -/
def mkFileKey (pid : Nat) (fname : String) : String :=
  "project_documents/" ++ toString pid ++ "_" ++ fname

/-- `priority in ['High', 'Critical']` in `project_create`. -/
def highPriority (pr : String) : Bool :=
  pr = "High" || pr = "Critical"

/-- `Project.objects.create(...)` as called by `project_create`: every column
is passed explicitly, so a `none` (Python `None`) in any NOT NULL column makes
the INSERT fail with `IntegrityError`; the field defaults declared on the
model are not consulted. On success the row gets the next primary key and
`created_at = updated_at = clock` (`auto_now_add`/`auto_now`). -/
def objectsCreate (s : Store)
    (name description location start_date end_date budget status priority : Option String)
    (manager : Nat) : Except String (Store × Project) :=
  match name, description, location, start_date, end_date, budget, status, priority with
  | some n, some d, some l, some sd, some ed, some b, some st, some pr =>
      let p : Project :=
        { id := s.nextId, name := n, description := d, location := l,
          start_date := sd, end_date := ed, budget := b, status := st,
          priority := pr, manager := manager, document := none,
          created_at := s.clock, updated_at := s.clock }
      .ok ({ projects := s.projects ++ [p], nextId := s.nextId + 1, clock := s.clock + 1 }, p)
  | _, _, _, _, _, _, _, _ => .error "IntegrityError: NOT NULL constraint failed"

/-- `project.save()` on an existing row: writes the row back by primary key
and refreshes `updated_at` (`auto_now`). -/
def saveProject (s : Store) (p : Project) : Store × Project :=
  let p' := { p with updated_at := s.clock }
  ({ s with projects := s.projects.map (fun q => if q.id = p.id then p' else q),
            clock := s.clock + 1 }, p')

/-- Outcome of the `project_create` view. -/
inductive CreateResult where
  | redirectLogin
  | renderForm
  | created (s : Store) (fx : List Effect)
  | dbError (msg : String)
deriving Repr, DecidableEq

/-- `views.project_create`. On POST it reads the form, inserts the project
(with the requesting user as manager), uploads the optional document to S3
under `mkFileKey` (recording the key on the row only when the upload
succeeds), logs the creation, always sends one SES email (to the user's email,
or the configured sender address when that is empty), and publishes one SNS
message exactly when the submitted priority is High or Critical. -/
def project_create (cfg : Settings) (env : AwsEnv) (s : Store) (user : UserRec)
    (method : Method) (form : PostForm) (file : Option UploadedFile) : CreateResult :=
  if !user.isAuthenticated then .redirectLogin
  else match method with
  | .get => .renderForm
  | .post =>
    match objectsCreate s form.name form.description form.location form.start_date
        form.end_date form.budget form.status form.priority user.id with
    | .error e => .dbError e
    | .ok (s1, p) =>
      let (s2, fx1) :=
        match file with
        | none => (s1, ([] : List Effect))
        | some f =>
          let key := mkFileKey p.id f.name
          if env.s3UploadOk key then
            let (s2, _) := saveProject s1 { p with document := some key }
            (s2, [.s3Upload key true, .cwFileUpload f.name user.username (some p.name)])
          else (s1, [.s3Upload key false])
      let fx2 := fx1 ++ [.cwActivity "CREATE" p.name user.username]
      let toAddr := if user.email = "" then cfg.senderEmail else user.email
      let fx3 := fx2 ++ [.sesEmail toAddr ("New Construction Project Created: " ++ p.name)]
      let fx4 :=
        if highPriority p.priority then
          fx3 ++ [.snsPublish cfg.snsTopicArn
            ("High priority construction project created: " ++ p.name ++
              " (Priority: " ++ p.priority ++ ")")]
        else fx3
      .created s2 fx4

/-- Outcome of the `project_detail` view. `dbError` is an uncaught
`IntegrityError` from `project.save()` (the store is unchanged, but the S3
upload attempted before the save has already happened). -/
inductive DetailResult where
  | redirectLogin
  | notFound
  | page (s : Store) (fx : List Effect) (docUrl : Option String)
  | deleted (s : Store) (fx : List Effect)
  | dbError (s : Store) (fx : List Effect) (msg : String)
deriving Repr, DecidableEq

/-- The tail of `project_detail` shared by all non-delete paths: log the
detail VIEW and, when the row has a (truthy, i.e. non-empty) document key,
ask S3 for a presigned URL. -/
def renderDetail (env : AwsEnv) (s : Store) (p : Project) (user : UserRec)
    (fx : List Effect) : DetailResult :=
  let fx1 := fx ++ [.cwActivity "VIEW" p.name user.username]
  match p.document with
  | some key =>
      if key = "" then .page s fx1 none
      else .page s (fx1 ++ [.s3GetUrl key]) (env.fileUrl key)
  | none => .page s fx1 none

/-- `views.project_detail`. Looks the project up by primary key (404 when
absent). On POST with `action == 'update'` it assigns all eight form fields,
uploads the optional new document (recording its key only on success), saves
the row (raising when a form field was missing) and logs an UPDATE event; on
`action == 'delete'` it deletes the row, logs a DELETE event and redirects to
the list; every non-delete path falls through to the VIEW log and the
detail page. -/
def project_detail (env : AwsEnv) (s : Store) (user : UserRec) (pid : Nat)
    (method : Method) (form : PostForm) (file : Option UploadedFile) : DetailResult :=
  if !user.isAuthenticated then .redirectLogin
  else match findProject s pid with
  | none => .notFound
  | some p =>
    match method with
    | .get => renderDetail env s p user []
    | .post =>
      if form.action = some "update" then
        let (doc2, fxU) :=
          match file with
          | none => (p.document, ([] : List Effect))
          | some f =>
            let key := mkFileKey p.id f.name
            if env.s3UploadOk key then
              (some key, [.s3Upload key true, .cwFileUpload f.name user.username form.name])
            else (p.document, [.s3Upload key false])
        match form.name, form.description, form.location, form.start_date, form.end_date,
              form.budget, form.status, form.priority with
        | some n, some d, some l, some sd, some ed, some b, some st, some pr =>
          let p1 : Project :=
            { p with name := n, description := d, location := l, start_date := sd,
                     end_date := ed, budget := b, status := st, priority := pr,
                     document := doc2 }
          let (s1, p2) := saveProject s p1
          renderDetail env s1 p2 user (fxU ++ [.cwActivity "UPDATE" p2.name user.username])
        | _, _, _, _, _, _, _, _ =>
          .dbError s fxU "IntegrityError: NOT NULL constraint failed"
      else if form.action = some "delete" then
        let s1 : Store := { s with projects := s.projects.filter (fun q => !(q.id = pid)) }
        .deleted s1 [.cwActivity "DELETE" p.name user.username]
      else renderDetail env s p user []

/-- The default row order declared by `Project.Meta.ordering = ['-created_at']`:
most recently created first. -/
def laterFirst (a b : Project) : Prop :=
  b.created_at ≤ a.created_at

instance : DecidableRel laterFirst :=
  fun a b => Nat.decLe b.created_at a.created_at

instance : IsTotal Project laterFirst :=
  ⟨fun a b => Nat.le_total b.created_at a.created_at⟩

instance : IsTrans Project laterFirst :=
  ⟨fun _ _ _ hab hbc => Nat.le_trans hbc hab⟩

/-- `Project.objects.all()` under the model's default ordering. -/
def objectsAll (s : Store) : List Project :=
  List.insertionSort laterFirst s.projects

/-- Outcome of the `project_list` view. -/
inductive ListResult where
  | redirectLogin
  | page (projects : List Project) (fx : List Effect)
deriving Repr, DecidableEq

/-- `views.project_list`: all projects in default order, plus a VIEW log. -/
def project_list (s : Store) (user : UserRec) : ListResult :=
  if !user.isAuthenticated then .redirectLogin
  else .page (objectsAll s) [.cwActivity "VIEW" "PROJECT_LIST" user.username]

/-! ### CloudWatchLogger (`aws_utils.py`) -/

/-- A raised Python exception, as observed at the CloudWatchLogger boundary. -/
abbrev PyExc := String

/-- Python `try: body / except Exception: handler`. -/
def pyTry (body : Except PyExc α) (handler : PyExc → Except PyExc α) : Except PyExc α :=
  match body with
  | .ok a => .ok a
  | .error e => handler e

/-- Oracle outcomes of the five boto3 `logs` API calls a
`CloudWatchLogger.log_project_activity` run may perform. -/
structure CwEnv where
  describeLogGroups : Except PyExc Unit
  createLogGroup : Except PyExc Unit
  describeLogStreams : Except PyExc Unit
  createLogStream : Except PyExc Unit
  putLogEvents : Except PyExc Unit

/-- `CloudWatchLogger.ensure_log_group_exists`: try describe; on any
exception try create; on any exception return False. -/
def ensure_log_group_exists (e : CwEnv) : Except PyExc Bool :=
  pyTry (do e.describeLogGroups; pure true)
    (fun _ => pyTry (do e.createLogGroup; pure true) (fun _ => pure false))

/-- `CloudWatchLogger.ensure_log_stream_exists`: same shape for the stream. -/
def ensure_log_stream_exists (e : CwEnv) : Except PyExc Bool :=
  pyTry (do e.describeLogStreams; pure true)
    (fun _ => pyTry (do e.createLogStream; pure true) (fun _ => pure false))

/-- `CloudWatchLogger.log_project_activity`: short-circuit the two ensure
steps (returning False if either fails), then try `put_log_events` with the
JSON entry built from the arguments, catching any exception into False. -/
def log_project_activity (e : CwEnv) (activity_type project_name user : String)
    (details : List (String × String)) : Except PyExc Bool := do
  let g ← ensure_log_group_exists e
  if !g then pure false
  else do
    let st ← ensure_log_stream_exists e
    if !st then pure false
    else pyTry (do e.putLogEvents; pure true) (fun _ => pure false)

/-! ### Projections used to state the claims -/

/-- The project stored under `pid` after a detail request rendered a page. -/
def updatedProjectOf (r : DetailResult) (pid : Nat) : Option Project :=
  match r with
  | .page s _ _ => findProject s pid
  | _ => none

/-- The effect trace of a successful creation. -/
def createdEffectsOf : CreateResult → Option (List Effect)
  | .created _ fx => some fx
  | _ => none

/-- The store of a successful creation. -/
def createdStoreOf : CreateResult → Option Store
  | .created s _ => some s
  | _ => none

/-- Is this effect an SES email attempt? -/
def Effect.isEmail : Effect → Bool
  | .sesEmail _ _ => true
  | _ => false

/-- Is this effect an SNS broadcast attempt? -/
def Effect.isSns : Effect → Bool
  | .snsPublish _ _ => true
  | _ => false

/-- Erase the acting username from an audit effect. -/
def Effect.anon : Effect → Effect
  | .cwActivity a subj _ => .cwActivity a subj ""
  | .cwFileUpload f _ pn => .cwFileUpload f "" pn
  | e => e

/-- Erase acting usernames from a detail outcome. -/
def DetailResult.anon : DetailResult → DetailResult
  | .page s fx u => .page s (fx.map Effect.anon) u
  | .deleted s fx => .deleted s (fx.map Effect.anon)
  | .dbError s fx m => .dbError s (fx.map Effect.anon) m
  | r => r

/-- The project sequence a list outcome renders. -/
def ListResult.projectsOf : ListResult → Option (List Project)
  | .page ps _ => some ps
  | .redirectLogin => none

/-- The eight form-carried columns of a row, as a tuple. -/
def Project.formFields (p : Project) :
    String × String × String × String × String × String × String × String :=
  (p.name, p.description, p.location, p.start_date, p.end_date, p.budget, p.status, p.priority)

/-- The effect trace of a rendered detail page. -/
def pageEffectsOf : DetailResult → Option (List Effect)
  | .page _ fx _ => some fx
  | _ => none

/-- The store of a rendered detail page. -/
def pageStoreOf : DetailResult → Option Store
  | .page s _ _ => some s
  | _ => none

/-- A fixture store holding one project owned by `alice`. -/
def storeOne : Store :=
  Store.mk [Project.mk 0 "A" "d" "l" "sd" "ed" "100" "Planning" "Low" 7 none 0 0] 1 5

/-- A fixture store whose single project has a stored document key. -/
def storeOneDoc : Store :=
  Store.mk [Project.mk 0 "A" "d" "l" "sd" "ed" "100" "Planning" "Low" 7
    (some "project_documents/0_old.pdf") 0 0] 1 5

/-- A POST body carrying only `action=delete`. -/
def deleteForm : PostForm :=
  PostForm.mk none none none none none none none none (some "delete")

/-- Fixture rows for the ordering witness: created first, second, third. -/
def projA : Project := Project.mk 0 "A" "dA" "lA" "sdA" "edA" "1" "Planning" "Low" 7 none 0 0

/-- Second fixture row. -/
def projB : Project := Project.mk 1 "B" "dB" "lB" "sdB" "edB" "2" "Planning" "Low" 7 none 1 1

/-- Third fixture row. -/
def projC : Project := Project.mk 2 "C" "dC" "lC" "sdC" "edC" "3" "Planning" "Low" 7 none 2 2

/-- The store after creating `projA`, `projB`, `projC` in that order. -/
def storeABC : Store := Store.mk [projA, projB, projC] 3 3

/-! ### Concrete fixtures shared by witnesses and counterexamples -/

/-- Concrete settings. -/
def cfg0 : Settings := { senderEmail := "sender@example.com", snsTopicArn := "arn:aws:sns:topic" }

/-- An AWS side where uploads succeed and URLs resolve. -/
def envOkAws : AwsEnv := { s3UploadOk := fun _ => true, fileUrl := fun k => some ("https://s3/" ++ k) }

/-- An AWS side where every S3 upload fails. -/
def envFailUpload : AwsEnv := { s3UploadOk := fun _ => false, fileUrl := fun _ => none }

/-- A logged-in user. -/
def alice : UserRec := { id := 7, username := "alice", email := "alice@example.com", isAuthenticated := true }

/-- Another logged-in user (not the manager of any fixture project). -/
def bob : UserRec := { id := 8, username := "bob", email := "bob@example.com", isAuthenticated := true }

/-- An empty database. -/
def emptyStore : Store := { projects := [], nextId := 0, clock := 0 }

/-! ### General lemmas about the store operations -/

/-- Looking a fresh row up in `old ++ [p]` finds `p` when every old row has a
smaller primary key. -/
theorem find?_fresh_row (l : List Project) (nid : Nat) (hold : ∀ q ∈ l, q.id < nid)
    (p : Project) (hid : p.id = nid) :
    List.find? (fun q => q.id = nid) (l ++ [p]) = some p := by
  rw [List.find?_append]
  have h1 : List.find? (fun q => q.id = nid) l = none :=
    List.find?_eq_none.mpr (fun q hq => by
      simp only [decide_eq_true_eq]
      exact Nat.ne_of_lt (hold q hq))
  rw [h1]
  simp [List.find?, hid]

/-- Replacing the row with key `pid` by `p'` (with `p'.id = pid`) makes the
lookup return `p'` exactly when it previously returned something. -/
theorem find?_replace_row (l : List Project) (pid : Nat) (p' : Project) (hp' : p'.id = pid) :
    List.find? (fun q => q.id = pid) (l.map (fun q => if q.id = pid then p' else q)) =
      (List.find? (fun q => q.id = pid) l).map (fun _ => p') := by
  induction l with
  | nil => rfl
  | cons e l ih =>
    by_cases he : e.id = pid
    · simp [List.find?, he, hp']
    · simp [List.find?, he, ih]

/-- Looking up `nid` after appending a fresh row with that key and then
replacing it (the `create` + `save` path of a create with document). -/
theorem find?_replace_in_append (old : List Project) (nid : Nat)
    (hold : ∀ q ∈ old, q.id < nid) (pOrig pNew : Project)
    (hO : pOrig.id = nid) (hN : pNew.id = nid) :
    List.find? (fun q => q.id = nid)
      ((old ++ [pOrig]).map (fun q => if q.id = nid then pNew else q)) = some pNew := by
  rw [find?_replace_row (old ++ [pOrig]) nid pNew hN,
    find?_fresh_row old nid hold pOrig hO]
  rfl

/-- After filtering the row with key `pid` out, the lookup fails. -/
theorem find?_filtered_row (l : List Project) (pid : Nat) :
    List.find? (fun q => q.id = pid) (l.filter (fun q => !(q.id = pid))) = none := by
  apply List.find?_eq_none.mpr
  intro q hq
  have := (List.mem_filter.mp hq).2
  simp only [Bool.not_eq_true', decide_eq_false_iff_not] at this
  simp [this]

/-- Inversion of a successful `objectsCreate`: every submitted field was
present and equals the corresponding column of the new row, which is fresh,
document-free and clock-stamped; the store grew by exactly that row. -/
theorem objectsCreate_ok {s : Store} {n? d? l? sd? ed? b? st? pr? : Option String}
    {mgr : Nat} {s' : Store} {p : Project}
    (h : objectsCreate s n? d? l? sd? ed? b? st? pr? mgr = .ok (s', p)) :
    n? = some p.name ∧ d? = some p.description ∧ l? = some p.location ∧
    sd? = some p.start_date ∧ ed? = some p.end_date ∧ b? = some p.budget ∧
    st? = some p.status ∧ pr? = some p.priority ∧
    p.id = s.nextId ∧ p.manager = mgr ∧ p.document = none ∧
    p.created_at = s.clock ∧ p.updated_at = s.clock ∧
    s' = { projects := s.projects ++ [p], nextId := s.nextId + 1, clock := s.clock + 1 } := by
  cases n? with
  | none => simp [objectsCreate] at h
  | some n =>
  cases d? with
  | none => simp [objectsCreate] at h
  | some d =>
  cases l? with
  | none => simp [objectsCreate] at h
  | some l =>
  cases sd? with
  | none => simp [objectsCreate] at h
  | some sd =>
  cases ed? with
  | none => simp [objectsCreate] at h
  | some ed =>
  cases b? with
  | none => simp [objectsCreate] at h
  | some b =>
  cases st? with
  | none => simp [objectsCreate] at h
  | some st =>
  cases pr? with
  | none => simp [objectsCreate] at h
  | some pr =>
    simp only [objectsCreate, Except.ok.injEq, Prod.mk.injEq] at h
    obtain ⟨hs, hp⟩ := h
    subst hs
    subst hp
    simp

/-! ### Claim theorems -/

/-- C8: for every oracle outcome of the five boto3 calls and every input,
`CloudWatchLogger.log_project_activity` terminates in the `ok` world of the
exception monad — every internal failure is caught and turned into a `Bool`,
nothing is raised past its boundary. -/
theorem log_project_activity_never_raises (e : CwEnv) (a pn user : String)
    (d : List (String × String)) :
    ∃ b, log_project_activity e a pn user d = Except.ok b := by
  unfold log_project_activity ensure_log_group_exists ensure_log_stream_exists pyTry
  cases e.describeLogGroups <;> cases e.createLogGroup <;> cases e.describeLogStreams <;>
    cases e.createLogStream <;> cases e.putLogEvents <;>
      simp [Bind.bind, Except.bind, pure, Except.pure]

/-- C1 (amended): a create submission in which all eight fields are present
persists a project retrievable with exactly the submitted values (the
optional file changes only the document column). -/
theorem create_persists_submitted_fields
    (cfg : Settings) (env : AwsEnv) (s : Store) (hWF : s.WF)
    (u : UserRec) (hu : u.isAuthenticated = true)
    (n d l sd ed b st pr : String) (act : Option String) (file : Option UploadedFile) :
    ((createdStoreOf (project_create cfg env s u .post (fullForm n d l sd ed b st pr act) file)).bind
        (fun s' => findProject s' s.nextId)).map Project.formFields
      = some (n, d, l, sd, ed, b, st, pr) := by
  have hold : ∀ q ∈ s.projects, q.id < s.nextId := fun q hq => (hWF q hq).1
  cases file with
  | none =>
    simp [project_create, hu, objectsCreate, fullForm, createdStoreOf, findProject,
      find?_fresh_row s.projects s.nextId hold, Project.formFields]
  | some f =>
    by_cases hup : env.s3UploadOk (mkFileKey s.nextId f.name) = true
    · simp only [project_create, hu, objectsCreate, fullForm, saveProject, hup,
        createdStoreOf, findProject, Bool.not_true, Bool.false_eq_true, if_false, if_true,
        Option.some_bind]
      rw [find?_replace_in_append s.projects s.nextId hold _ _ rfl rfl]
      rfl
    · rw [Bool.not_eq_true] at hup
      simp [project_create, hu, objectsCreate, fullForm, createdStoreOf, findProject,
        hup, find?_fresh_row s.projects s.nextId hold, Project.formFields]

/-- C1 (counterexample): submitting the create form with the `status` key
omitted does not store a project with the default status `'Planning'`; the
view passes `status=None` into `Project.objects.create`, so the INSERT fails
with an uncaught `IntegrityError` and nothing is persisted. -/
theorem create_omitted_status_fails :
    project_create cfg0 envOkAws emptyStore alice .post
        { name := some "N", description := some "D", location := some "L",
          start_date := some "2025-01-01", end_date := some "2025-06-01",
          budget := some "100", status := none, priority := some "Medium", action := none }
        none
      = .dbError "IntegrityError: NOT NULL constraint failed"
    ∧ createdStoreOf (project_create cfg0 envOkAws emptyStore alice .post
        { name := some "N", description := some "D", location := some "L",
          start_date := some "2025-01-01", end_date := some "2025-06-01",
          budget := some "100", status := none, priority := some "Medium", action := none }
        none) = none :=
  ⟨rfl, rfl⟩

/-- C1 (witness): applying the amended theorem to a concrete submission. -/
theorem create_persists_submitted_fields_witness :
    ((createdStoreOf (project_create cfg0 envOkAws emptyStore alice .post
        (fullForm "Test Project" "D" "L" "2025-01-01" "2025-06-01" "100000.00" "Planning" "Medium" none)
        none)).bind
        (fun s' => findProject s' emptyStore.nextId)).map Project.formFields
      = some ("Test Project", "D", "L", "2025-01-01", "2025-06-01", "100000.00", "Planning", "Medium") :=
  create_persists_submitted_fields cfg0 envOkAws emptyStore
    (by simp [Store.WF, emptyStore]) alice rfl
    "Test Project" "D" "L" "2025-01-01" "2025-06-01" "100000.00" "Planning" "Medium" none none

/-- C3 (theorem): when the Document Store rejects the uploaded file, the
project is still persisted with every submitted field value and its document
column stays unset — the failed upload rolls nothing back. -/
theorem create_upload_failure_no_rollback
    (cfg : Settings) (env : AwsEnv) (s : Store) (hWF : s.WF)
    (u : UserRec) (hu : u.isAuthenticated = true)
    (n d l sd ed b st pr : String) (act : Option String) (f : UploadedFile)
    (hup : env.s3UploadOk (mkFileKey s.nextId f.name) = false) :
    ((createdStoreOf (project_create cfg env s u .post (fullForm n d l sd ed b st pr act) (some f))).bind
        (fun s' => findProject s' s.nextId)).map (fun p => (p.document, p.formFields))
      = some (none, n, d, l, sd, ed, b, st, pr) := by
  have hold : ∀ q ∈ s.projects, q.id < s.nextId := fun q hq => (hWF q hq).1
  simp [project_create, hu, objectsCreate, fullForm, createdStoreOf, findProject,
    hup, find?_fresh_row s.projects s.nextId hold, Project.formFields]

/-- C3 (witness): the theorem applied to a concrete submission against an
S3 oracle that rejects every upload. -/
theorem create_upload_failure_no_rollback_witness :
    ((createdStoreOf (project_create cfg0 envFailUpload emptyStore alice .post
        (fullForm "P" "D" "L" "2025-01-01" "2025-06-01" "100" "Planning" "Low" none)
        (some { name := "plan.pdf", content := "c" }))).bind
        (fun s' => findProject s' emptyStore.nextId)).map (fun p => (p.document, p.formFields))
      = some (none, "P", "D", "L", "2025-01-01", "2025-06-01", "100", "Planning", "Low") :=
  create_upload_failure_no_rollback cfg0 envFailUpload emptyStore
    (by simp [Store.WF, emptyStore]) alice rfl
    "P" "D" "L" "2025-01-01" "2025-06-01" "100" "Planning" "Low" none
    { name := "plan.pdf", content := "c" } rfl

/-- C2: every successful project creation attempts exactly one SES email,
and attempts an SNS broadcast if and only if the submitted priority is
`'High'` or `'Critical'`. -/
theorem create_notifies_email_once_sns_on_high
    (cfg : Settings) (env : AwsEnv) (s : Store) (u : UserRec) (m : Method)
    (form : PostForm) (file : Option UploadedFile) (s2 : Store) (fx : List Effect)
    (h : project_create cfg env s u m form file = .created s2 fx) :
    fx.countP Effect.isEmail = 1 ∧
    fx.countP Effect.isSns =
      (if form.priority = some "High" ∨ form.priority = some "Critical" then 1 else 0) := by
  cases hb : u.isAuthenticated with
  | false => simp [project_create, hb] at h
  | true =>
  cases m with
  | get => simp [project_create, hb] at h
  | post =>
  cases hoc : objectsCreate s form.name form.description form.location form.start_date
      form.end_date form.budget form.status form.priority u.id with
  | error e => simp [project_create, hb, hoc] at h
  | ok sp =>
    obtain ⟨s1, p⟩ := sp
    have hinv := objectsCreate_ok hoc
    have hpr : form.priority = some p.priority := hinv.2.2.2.2.2.2.2.1
    simp only [project_create, hb, hoc, Bool.not_true, Bool.false_eq_true, if_false] at h
    rw [hpr]
    by_cases hhp : highPriority p.priority = true
    · have hdis : p.priority = "High" ∨ p.priority = "Critical" := by
        simpa [highPriority] using hhp
      cases file with
      | none =>
        simp only [hhp, if_true] at h
        injection h with h1 h2
        subst h2
        rcases hdis with h3 | h3 <;>
          simp [List.countP_append, List.countP_cons, Effect.isEmail, Effect.isSns, h3]
      | some f =>
        by_cases hup : env.s3UploadOk (mkFileKey p.id f.name) = true <;>
            simp only [hup, hhp, if_true, Bool.false_eq_true, if_false] at h <;>
          (injection h with h1 h2
           subst h2
           rcases hdis with h3 | h3 <;>
             simp [List.countP_append, List.countP_cons, Effect.isEmail, Effect.isSns, h3])
    · rw [Bool.not_eq_true] at hhp
      have hd1 : p.priority ≠ "High" := by
        intro hx; rw [hx] at hhp; simp [highPriority] at hhp
      have hd2 : p.priority ≠ "Critical" := by
        intro hx; rw [hx] at hhp; simp [highPriority] at hhp
      cases file with
      | none =>
        simp only [hhp, Bool.false_eq_true, if_false] at h
        injection h with h1 h2
        subst h2
        simp [List.countP_append, List.countP_cons, Effect.isEmail, Effect.isSns, hd1, hd2]
      | some f =>
        by_cases hup : env.s3UploadOk (mkFileKey p.id f.name) = true <;>
            simp only [hup, hhp, if_true, Bool.false_eq_true, if_false] at h <;>
          (injection h with h1 h2
           subst h2
           simp [List.countP_append, List.countP_cons, Effect.isEmail, Effect.isSns, hd1, hd2])

/-- C2 (witness): the theorem applied to a concrete high-priority creation. -/
theorem create_notifies_email_once_sns_on_high_witness :
    ([Effect.cwActivity "CREATE" "H" "alice",
      Effect.sesEmail "alice@example.com" "New Construction Project Created: H",
      Effect.snsPublish "arn:aws:sns:topic"
        "High priority construction project created: H (Priority: High)"] : List Effect).countP Effect.isEmail = 1
    ∧ ([Effect.cwActivity "CREATE" "H" "alice",
      Effect.sesEmail "alice@example.com" "New Construction Project Created: H",
      Effect.snsPublish "arn:aws:sns:topic"
        "High priority construction project created: H (Priority: High)"] : List Effect).countP Effect.isSns =
      (if (fullForm "H" "d" "l" "sd" "ed" "9" "Planning" "High" none).priority = some "High"
          ∨ (fullForm "H" "d" "l" "sd" "ed" "9" "Planning" "High" none).priority = some "Critical"
        then 1 else 0) :=
  create_notifies_email_once_sns_on_high cfg0 envOkAws emptyStore alice .post
    (fullForm "H" "d" "l" "sd" "ed" "9" "Planning" "High" none) none
    (Store.mk [Project.mk 0 "H" "d" "l" "sd" "ed" "9" "Planning" "High" 7 none 0 0] 1 1)
    [Effect.cwActivity "CREATE" "H" "alice",
      Effect.sesEmail "alice@example.com" "New Construction Project Created: H",
      Effect.snsPublish "arn:aws:sns:topic"
        "High priority construction project created: H (Priority: High)"]
    rfl


/-- The row a rendered detail page exposes under `pid` is the one in the
store the page was rendered from. -/
theorem updatedProjectOf_renderDetail (env : AwsEnv) (s : Store) (p : Project)
    (u : UserRec) (fx : List Effect) (pid : Nat) :
    updatedProjectOf (renderDetail env s p u fx) pid = findProject s pid := by
  unfold renderDetail updatedProjectOf
  rcases p.document with _ | k
  · rfl
  · by_cases hk : k = "" <;> simp [hk]


/-- Every effect accumulated before the detail render survives into the
rendered page's trace. -/
theorem pageEffects_renderDetail_mem (env : AwsEnv) (s : Store) (p : Project)
    (u : UserRec) (fx : List Effect) (e : Effect) (he : e ∈ fx) :
    (pageEffectsOf (renderDetail env s p u fx)).map (fun fl => e ∈ fl) = some True := by
  unfold renderDetail pageEffectsOf
  rcases p.document with _ | k
  · simp [he]
  · by_cases hk : k = "" <;> simp [hk, he]

/-- C7: after a delete submission on an existing project's identity, any
subsequent detail lookup of that identity returns not-found, for any
authenticated user, method and body. -/
theorem delete_then_detail_not_found
    (env env2 : AwsEnv) (s : Store) (u u2 : UserRec)
    (hu2 : u2.isAuthenticated = true)
    (pid : Nat) (form : PostForm) (hact : form.action = some "delete")
    (file : Option UploadedFile) (s2 : Store) (fx : List Effect)
    (hdel : project_detail env s u pid .post form file = .deleted s2 fx)
    (m : Method) (form2 : PostForm) (file2 : Option UploadedFile) :
    project_detail env2 s2 u2 pid m form2 file2 = .notFound := by
  cases hb : u.isAuthenticated with
  | false => simp [project_detail, hb] at hdel
  | true =>
  cases hfp : findProject s pid with
  | none => simp [project_detail, hb, hfp] at hdel
  | some p =>
    simp only [project_detail, hb, hfp, hact, Bool.not_true, Bool.false_eq_true, if_false] at hdel
    rw [if_pos trivial] at hdel
    injection hdel with h1 h2
    subst h1
    simp only [project_detail, hu2, Bool.not_true, Bool.false_eq_true, if_false, findProject]
    rw [find?_filtered_row]

/-- C7 (witness): deleting the fixture project and looking it up again. -/
theorem delete_then_detail_not_found_witness :
    project_detail envOkAws (Store.mk [] 1 5) bob 0 .get deleteForm none
      = DetailResult.notFound :=
  delete_then_detail_not_found envOkAws envOkAws storeOne alice bob rfl 0 deleteForm rfl
    none (Store.mk [] 1 5) [Effect.cwActivity "DELETE" "A" "alice"] rfl .get deleteForm none

/-- C4 (amended): an update submission with all eight fields overwrites every
form-carried column with the submitted value; a supplied file's key is stored
(overwriting the previous document key) exactly when the Document Store put
succeeds, the document key otherwise staying unchanged; and an update-event
is recorded. -/
theorem update_full_replacement
    (env : AwsEnv) (s : Store) (u : UserRec) (hu : u.isAuthenticated = true)
    (pid : Nat) (p : Project) (hp : findProject s pid = some p)
    (n d l sd ed b st pr : String) (file : Option UploadedFile) :
    (updatedProjectOf (project_detail env s u pid .post
          (fullForm n d l sd ed b st pr (some "update")) file) pid).map
        (fun q => (q.formFields, q.document))
      = some ((n, d, l, sd, ed, b, st, pr),
          match file with
          | none => p.document
          | some f =>
            if env.s3UploadOk (mkFileKey pid f.name) = true then some (mkFileKey pid f.name)
            else p.document)
    ∧ (pageEffectsOf (project_detail env s u pid .post
          (fullForm n d l sd ed b st pr (some "update")) file)).map
        (fun fx => Effect.cwActivity "UPDATE" n u.username ∈ fx)
      = some True := by
  have hp2 : List.find? (fun q => decide (q.id = pid)) s.projects = some p := hp
  have hpid : p.id = pid := by
    have := List.find?_some hp2
    simpa using this
  cases file with
  | none =>
    constructor
    · simp only [project_detail, hu, hp, fullForm, Bool.not_true, Bool.false_eq_true,
        if_false, if_true]
      rw [updatedProjectOf_renderDetail]
      simp only [saveProject, findProject]
      rw [hpid, find?_replace_row s.projects pid _ rfl, hp2]
      simp [Project.formFields]
    · simp only [project_detail, hu, hp, fullForm, Bool.not_true, Bool.false_eq_true,
        if_false, if_true]
      exact pageEffects_renderDetail_mem _ _ _ _ _ _ (by simp [saveProject])
  | some f =>
    by_cases hup : env.s3UploadOk (mkFileKey p.id f.name) = true
    · constructor
      · simp only [project_detail, hu, hp, fullForm, Bool.not_true, Bool.false_eq_true,
          if_false, if_true, hup]
        rw [updatedProjectOf_renderDetail]
        simp only [saveProject, findProject]
        rw [hpid, find?_replace_row s.projects pid _ rfl, hp2]
        rw [hpid] at hup
        simp [Project.formFields, hup]
      · simp only [project_detail, hu, hp, fullForm, Bool.not_true, Bool.false_eq_true,
          if_false, if_true, hup]
        exact pageEffects_renderDetail_mem _ _ _ _ _ _ (by simp [saveProject])
    · rw [Bool.not_eq_true] at hup
      constructor
      · simp only [project_detail, hu, hp, fullForm, Bool.not_true, Bool.false_eq_true,
          if_false, if_true, hup]
        rw [updatedProjectOf_renderDetail]
        simp only [saveProject, findProject]
        rw [hpid, find?_replace_row s.projects pid _ rfl, hp2]
        rw [hpid] at hup
        simp [Project.formFields, hup]
      · simp only [project_detail, hu, hp, fullForm, Bool.not_true, Bool.false_eq_true,
          if_false, if_true, hup]
        exact pageEffects_renderDetail_mem _ _ _ _ _ _ (by simp [saveProject])

/-- C4 (counterexample): an update whose file upload fails leaves the
previous document key in place — the supplied file's key is not stored. -/
theorem update_upload_failure_keeps_document :
    (updatedProjectOf (project_detail envFailUpload storeOneDoc alice 0 .post
        (fullForm "A2" "d2" "l2" "sd2" "ed2" "200" "Completed" "High" (some "update"))
        (some (UploadedFile.mk "new.pdf" "c"))) 0).map Project.document
      = some (some "project_documents/0_old.pdf")
    ∧ some "project_documents/0_old.pdf" ≠ some (mkFileKey 0 "new.pdf") :=
  ⟨rfl, by decide⟩

/-- C4 (witness): the amended theorem on a concrete update with a document. -/
theorem update_full_replacement_witness :
    (updatedProjectOf (project_detail envOkAws storeOne alice 0 .post
          (fullForm "A2" "d2" "l2" "sd2" "ed2" "200" "Completed" "High" (some "update"))
          (some (UploadedFile.mk "v2.pdf" "c"))) 0).map
        (fun q => (q.formFields, q.document))
      = some (("A2", "d2", "l2", "sd2", "ed2", "200", "Completed", "High"),
          match some (UploadedFile.mk "v2.pdf" "c") with
          | none => (Project.mk 0 "A" "d" "l" "sd" "ed" "100" "Planning" "Low" 7 none 0 0).document
          | some f =>
            if envOkAws.s3UploadOk (mkFileKey 0 f.name) = true then some (mkFileKey 0 f.name)
            else (Project.mk 0 "A" "d" "l" "sd" "ed" "100" "Planning" "Low" 7 none 0 0).document)
    ∧ (pageEffectsOf (project_detail envOkAws storeOne alice 0 .post
          (fullForm "A2" "d2" "l2" "sd2" "ed2" "200" "Completed" "High" (some "update"))
          (some (UploadedFile.mk "v2.pdf" "c")))).map
        (fun fx => Effect.cwActivity "UPDATE" "A2" "alice" ∈ fx)
      = some True :=
  update_full_replacement envOkAws storeOne alice rfl 0
    (Project.mk 0 "A" "d" "l" "sd" "ed" "100" "Planning" "Low" 7 none 0 0) rfl
    "A2" "d2" "l2" "sd2" "ed2" "200" "Completed" "High" (some (UploadedFile.mk "v2.pdf" "c"))


/-- The store of a rendered detail page is the one it was rendered from. -/
theorem pageStoreOf_renderDetail (env : AwsEnv) (s : Store) (p : Project)
    (u : UserRec) (fx : List Effect) :
    pageStoreOf (renderDetail env s p u fx) = some s := by
  unfold renderDetail pageStoreOf
  rcases p.document with _ | k
  · rfl
  · by_cases hk : k = "" <;> simp [hk]

/-- C10 (amended): an update submission leaves the project's manager,
created_at timestamp and primary key unchanged, leaves every other row and
the auto-increment counter untouched, and modifies only the eight
form-carried fields, possibly the document key, and the system-maintained
`updated_at` timestamp. -/
theorem update_preserves_manager_created_at
    (env : AwsEnv) (s : Store) (u : UserRec) (hu : u.isAuthenticated = true)
    (pid : Nat) (p : Project) (hp : findProject s pid = some p)
    (n d l sd ed b st pr : String) (file : Option UploadedFile) :
    (updatedProjectOf (project_detail env s u pid .post
          (fullForm n d l sd ed b st pr (some "update")) file) pid).map
        (fun q => (q.id, q.manager, q.created_at))
      = some (pid, p.manager, p.created_at)
    ∧ (pageStoreOf (project_detail env s u pid .post
          (fullForm n d l sd ed b st pr (some "update")) file)).map Store.nextId
      = some s.nextId
    ∧ (pageStoreOf (project_detail env s u pid .post
          (fullForm n d l sd ed b st pr (some "update")) file)).map
        (fun s1 => ∀ q ∈ s.projects, q.id ≠ pid → q ∈ s1.projects)
      = some True
    ∧ (pageStoreOf (project_detail env s u pid .post
          (fullForm n d l sd ed b st pr (some "update")) file)).map
        (fun s1 => ∀ q ∈ s1.projects, q.id ≠ pid → q ∈ s.projects)
      = some True := by
  have hp2 : List.find? (fun q => decide (q.id = pid)) s.projects = some p := hp
  have hpid : p.id = pid := by
    have := List.find?_some hp2
    simpa using this
  have frame1 : ∀ (p1 : Project), p1.id = pid →
      (∀ q ∈ s.projects, q.id ≠ pid →
        q ∈ (s.projects.map (fun q => if q.id = pid then p1 else q))) := by
    intro p1 h1 q hq hne
    refine List.mem_map.mpr ⟨q, hq, ?_⟩
    simp [hne]
  have frame2 : ∀ (p1 : Project), p1.id = pid →
      (∀ q ∈ (s.projects.map (fun q => if q.id = pid then p1 else q)),
        q.id ≠ pid → q ∈ s.projects) := by
    intro p1 h1 q hq hne
    obtain ⟨q0, hq0, heq⟩ := List.mem_map.mp hq
    by_cases h0 : q0.id = pid
    · rw [if_pos h0] at heq
      exfalso
      exact hne (heq ▸ h1)
    · rw [if_neg h0] at heq
      exact heq ▸ hq0
  cases file with
  | none =>
    refine ⟨?_, ?_, ?_, ?_⟩
    · simp only [project_detail, hu, hp, fullForm, Bool.not_true, Bool.false_eq_true,
        if_false, if_true]
      rw [updatedProjectOf_renderDetail]
      simp only [saveProject, findProject]
      rw [hpid, find?_replace_row s.projects pid _ rfl, hp2]
      simp
    · simp only [project_detail, hu, hp, fullForm, Bool.not_true, Bool.false_eq_true,
        if_false, if_true]
      rw [pageStoreOf_renderDetail]
      simp [saveProject]
    · simp only [project_detail, hu, hp, fullForm, Bool.not_true, Bool.false_eq_true,
        if_false, if_true]
      rw [pageStoreOf_renderDetail]
      simp only [saveProject, Option.map_some]
      rw [hpid]
      exact congrArg some (eq_true (frame1 _ rfl))
    · simp only [project_detail, hu, hp, fullForm, Bool.not_true, Bool.false_eq_true,
        if_false, if_true]
      rw [pageStoreOf_renderDetail]
      simp only [saveProject, Option.map_some]
      rw [hpid]
      exact congrArg some (eq_true (frame2 _ rfl))
  | some f =>
    by_cases hup : env.s3UploadOk (mkFileKey p.id f.name) = true
    all_goals try rw [Bool.not_eq_true] at hup
    all_goals
      refine ⟨?_, ?_, ?_, ?_⟩
      · simp only [project_detail, hu, hp, fullForm, Bool.not_true, Bool.false_eq_true,
          if_false, if_true, hup]
        rw [updatedProjectOf_renderDetail]
        simp only [saveProject, findProject]
        rw [hpid, find?_replace_row s.projects pid _ rfl, hp2]
        simp
      · simp only [project_detail, hu, hp, fullForm, Bool.not_true, Bool.false_eq_true,
          if_false, if_true, hup]
        rw [pageStoreOf_renderDetail]
        simp [saveProject]
      · simp only [project_detail, hu, hp, fullForm, Bool.not_true, Bool.false_eq_true,
          if_false, if_true, hup]
        rw [pageStoreOf_renderDetail]
        simp only [saveProject, Option.map_some]
        rw [hpid]
        exact congrArg some (eq_true (frame1 _ rfl))
      · simp only [project_detail, hu, hp, fullForm, Bool.not_true, Bool.false_eq_true,
          if_false, if_true, hup]
        rw [pageStoreOf_renderDetail]
        simp only [saveProject, Option.map_some]
        rw [hpid]
        exact congrArg some (eq_true (frame2 _ rfl))

/-- C10 (counterexample): the update also rewrites the system-maintained
`updated_at` column (`auto_now`), so the eight form fields and the document
key are not the only modified columns. -/
theorem update_changes_updated_at :
    (findProject storeOne 0).map Project.updated_at = some 0
    ∧ (updatedProjectOf (project_detail envOkAws storeOne alice 0 .post
          (fullForm "A2" "d2" "l2" "sd2" "ed2" "200" "Completed" "High" (some "update"))
          none) 0).map Project.updated_at = some 5
    ∧ (5 : Nat) ≠ 0 :=
  ⟨rfl, rfl, by decide⟩

/-- C10 (witness): the amended theorem on a concrete update. -/
theorem update_preserves_manager_created_at_witness :
    (updatedProjectOf (project_detail envOkAws storeOne alice 0 .post
          (fullForm "A2" "d2" "l2" "sd2" "ed2" "200" "Completed" "High" (some "update"))
          none) 0).map (fun q => (q.id, q.manager, q.created_at))
      = some (0, 7, 0)
    ∧ (pageStoreOf (project_detail envOkAws storeOne alice 0 .post
          (fullForm "A2" "d2" "l2" "sd2" "ed2" "200" "Completed" "High" (some "update"))
          none)).map Store.nextId = some 1
    ∧ (pageStoreOf (project_detail envOkAws storeOne alice 0 .post
          (fullForm "A2" "d2" "l2" "sd2" "ed2" "200" "Completed" "High" (some "update"))
          none)).map
        (fun s1 => ∀ q ∈ storeOne.projects, q.id ≠ 0 → q ∈ s1.projects) = some True
    ∧ (pageStoreOf (project_detail envOkAws storeOne alice 0 .post
          (fullForm "A2" "d2" "l2" "sd2" "ed2" "200" "Completed" "High" (some "update"))
          none)).map
        (fun s1 => ∀ q ∈ s1.projects, q.id ≠ 0 → q ∈ storeOne.projects) = some True :=
  update_preserves_manager_created_at envOkAws storeOne alice rfl 0
    (Project.mk 0 "A" "d" "l" "sd" "ed" "100" "Planning" "Low" 7 none 0 0) rfl
    "A2" "d2" "l2" "sd2" "ed2" "200" "Completed" "High" none


/-- C5 (amended): every file document persisted during create or during
update is stored under the key `project_documents/<project-id>_<original-filename>`
built from the project's identity and the uploaded file's original name. -/
theorem stored_document_keys_use_id_and_filename :
    (∀ (cfg : Settings) (env : AwsEnv) (s : Store), s.WF → ∀ (u : UserRec),
      u.isAuthenticated = true →
      ∀ (n d l sd ed b st pr : String) (act : Option String) (f : UploadedFile),
      env.s3UploadOk (mkFileKey s.nextId f.name) = true →
      ((createdStoreOf (project_create cfg env s u .post
            (fullForm n d l sd ed b st pr act) (some f))).bind
          (fun s1 => findProject s1 s.nextId)).map Project.document
        = some (some ("project_documents/" ++ toString s.nextId ++ "_" ++ f.name)))
    ∧ (∀ (env : AwsEnv) (s : Store) (u : UserRec), u.isAuthenticated = true →
      ∀ (pid : Nat) (p : Project), findProject s pid = some p →
      ∀ (n d l sd ed b st pr : String) (f : UploadedFile),
      env.s3UploadOk (mkFileKey pid f.name) = true →
      (updatedProjectOf (project_detail env s u pid .post
          (fullForm n d l sd ed b st pr (some "update")) (some f)) pid).map Project.document
        = some (some ("project_documents/" ++ toString pid ++ "_" ++ f.name))) := by
  constructor
  · intro cfg env s hWF u hu n d l sd ed b st pr act f hup
    have hold : ∀ q ∈ s.projects, q.id < s.nextId := fun q hq => (hWF q hq).1
    simp only [project_create, hu, objectsCreate, fullForm, saveProject, hup,
      createdStoreOf, findProject, Bool.not_true, Bool.false_eq_true, if_false, if_true,
      Option.some_bind]
    rw [find?_replace_in_append s.projects s.nextId hold _ _ rfl rfl]
    rfl
  · intro env s u hu pid p hp n d l sd ed b st pr f hup
    have hp2 : List.find? (fun q => decide (q.id = pid)) s.projects = some p := hp
    have hpid : p.id = pid := by
      have := List.find?_some hp2
      simpa using this
    have hup2 : env.s3UploadOk (mkFileKey p.id f.name) = true := by rw [hpid]; exact hup
    simp only [project_detail, hu, hp, fullForm, Bool.not_true, Bool.false_eq_true,
      if_false, if_true, hup2]
    rw [updatedProjectOf_renderDetail]
    simp only [saveProject, findProject]
    rw [hpid, find?_replace_row s.projects pid _ rfl, hp2]
    rfl

/-- C5 (counterexample): the stored key is not of the bare form
`<project-id>_<original-filename>`: it carries the fixed `project_documents/`
directory prefix. -/
theorem upload_key_has_directory_prefix :
    ((createdStoreOf (project_create cfg0 envOkAws emptyStore alice .post
          (fullForm "P" "d" "l" "sd" "ed" "9" "Planning" "Low" none)
          (some (UploadedFile.mk "plan.pdf" "c")))).bind
        (fun s1 => findProject s1 0)).map Project.document
      = some (some "project_documents/0_plan.pdf")
    ∧ "project_documents/0_plan.pdf" ≠ "0_plan.pdf" :=
  ⟨rfl, by decide⟩

/-- C5 (witness): the amended theorem's create part on a concrete upload. -/
theorem stored_document_keys_use_id_and_filename_witness :
    ((createdStoreOf (project_create cfg0 envOkAws emptyStore alice .post
          (fullForm "P" "d" "l" "sd" "ed" "9" "Planning" "Low" none)
          (some (UploadedFile.mk "plan.pdf" "c")))).bind
        (fun s1 => findProject s1 emptyStore.nextId)).map Project.document
      = some (some ("project_documents/" ++ toString emptyStore.nextId ++ "_" ++ "plan.pdf")) :=
  stored_document_keys_use_id_and_filename.1 cfg0 envOkAws emptyStore
    (by simp [Store.WF, emptyStore]) alice rfl "P" "d" "l" "sd" "ed" "9" "Planning" "Low" none
    (UploadedFile.mk "plan.pdf" "c") rfl


/-- Erasing the acting username makes the detail render independent of the
requesting user. -/
theorem renderDetail_anon (env : AwsEnv) (s : Store) (p : Project)
    (u1 u2 : UserRec) (fx1 fx2 : List Effect)
    (hfx : fx1.map Effect.anon = fx2.map Effect.anon) :
    (renderDetail env s p u1 fx1).anon = (renderDetail env s p u2 fx2).anon := by
  unfold renderDetail
  rcases p.document with _ | k
  · simp [DetailResult.anon, Effect.anon, hfx]
  · by_cases hk : k = "" <;> simp [hk, DetailResult.anon, Effect.anon, hfx]


/-- C9: for any two authenticated users — in particular the project's manager
and a non-manager — the view, update and delete outcomes of `project_detail`
(up to the username recorded in audit effects) and the sequence rendered by
`project_list` are identical: the outcome depends only on being
authenticated, never on ownership. -/
theorem detail_and_list_ignore_ownership
    (env : AwsEnv) (s : Store) (pid : Nat) (m : Method) (form : PostForm)
    (file : Option UploadedFile) (u1 u2 : UserRec)
    (h1 : u1.isAuthenticated = true) (h2 : u2.isAuthenticated = true) :
    (project_detail env s u1 pid m form file).anon
      = (project_detail env s u2 pid m form file).anon
    ∧ (project_list s u1).projectsOf = (project_list s u2).projectsOf := by
  constructor
  · obtain ⟨fn, fd, fl, fsd, fed, fb, fst, fpr, fact⟩ := form
    simp only [project_detail, h1, h2, Bool.not_true, Bool.false_eq_true, if_false]
    cases hfp : findProject s pid with
    | none => rfl
    | some p =>
    cases m with
    | get =>
      dsimp only
      exact renderDetail_anon env s p u1 u2 [] [] rfl
    | post =>
    dsimp only
    by_cases hau : fact = some "update"
    · rw [if_pos hau, if_pos hau]
      cases file with
      | none =>
        cases fn with
        | none => rfl
        | some x0 =>
        cases fd with
        | none => rfl
        | some x1 =>
        cases fl with
        | none => rfl
        | some x2 =>
        cases fsd with
        | none => rfl
        | some x3 =>
        cases fed with
        | none => rfl
        | some x4 =>
        cases fb with
        | none => rfl
        | some x5 =>
        cases fst with
        | none => rfl
        | some x6 =>
        cases fpr with
        | none => rfl
        | some x7 =>
        exact renderDetail_anon env _ _ u1 u2 _ _ (by simp [Effect.anon])
      | some f =>
        by_cases hup : env.s3UploadOk (mkFileKey p.id f.name) = true
        · simp only [hup, if_true]
          cases fn with
          | none => simp [DetailResult.anon, Effect.anon]
          | some x0 =>
          cases fd with
          | none => simp [DetailResult.anon, Effect.anon]
          | some x1 =>
          cases fl with
          | none => simp [DetailResult.anon, Effect.anon]
          | some x2 =>
          cases fsd with
          | none => simp [DetailResult.anon, Effect.anon]
          | some x3 =>
          cases fed with
          | none => simp [DetailResult.anon, Effect.anon]
          | some x4 =>
          cases fb with
          | none => simp [DetailResult.anon, Effect.anon]
          | some x5 =>
          cases fst with
          | none => simp [DetailResult.anon, Effect.anon]
          | some x6 =>
          cases fpr with
          | none => simp [DetailResult.anon, Effect.anon]
          | some x7 =>
          exact renderDetail_anon env _ _ u1 u2 _ _ (by simp [Effect.anon])
        · rw [Bool.not_eq_true] at hup
          simp only [hup, Bool.false_eq_true, if_false]
          cases fn with
          | none => rfl
          | some x0 =>
          cases fd with
          | none => rfl
          | some x1 =>
          cases fl with
          | none => rfl
          | some x2 =>
          cases fsd with
          | none => rfl
          | some x3 =>
          cases fed with
          | none => rfl
          | some x4 =>
          cases fb with
          | none => rfl
          | some x5 =>
          cases fst with
          | none => rfl
          | some x6 =>
          cases fpr with
          | none => rfl
          | some x7 =>
          exact renderDetail_anon env _ _ u1 u2 _ _ (by simp [Effect.anon])
    · rw [if_neg hau, if_neg hau]
      by_cases had : fact = some "delete"
      · rw [if_pos had, if_pos had]
        simp [DetailResult.anon, Effect.anon]
      · rw [if_neg had, if_neg had]
        exact renderDetail_anon env s p u1 u2 [] [] rfl
  · simp [project_list, h1, h2, ListResult.projectsOf]

/-- C9 (witness): the manager (`alice`, id 7) and a non-manager (`bob`) get
identical outcomes on the fixture project. -/
theorem detail_and_list_ignore_ownership_witness :
    (project_detail envOkAws storeOne alice 0 .get deleteForm none).anon
      = (project_detail envOkAws storeOne bob 0 .get deleteForm none).anon
    ∧ (project_list storeOne alice).projectsOf = (project_list storeOne bob).projectsOf :=
  detail_and_list_ignore_ownership envOkAws storeOne 0 .get deleteForm none alice bob rfl rfl


/-- The head of the default-ordered listing is the row whose `created_at`
strictly dominates every other row's. -/
theorem objectsAll_head_of_strict_max (s : Store) (c : Project) (hc : c ∈ s.projects)
    (hmax : ∀ q ∈ s.projects, q = c ∨ q.created_at < c.created_at) :
    (objectsAll s).head? = some c := by
  have hperm := List.perm_insertionSort laterFirst s.projects
  have hsorted := List.sorted_insertionSort laterFirst s.projects
  unfold objectsAll
  cases hl : List.insertionSort laterFirst s.projects with
  | nil =>
    exfalso
    have hcm : c ∈ List.insertionSort laterFirst s.projects := hperm.mem_iff.mpr hc
    rw [hl] at hcm
    exact List.not_mem_nil c hcm
  | cons h t =>
    have hhmem : h ∈ s.projects := hperm.subset (by rw [hl]; exact List.mem_cons_self h t)
    rcases hmax h hhmem with rfl | hlt
    · rfl
    · exfalso
      have hcm : c ∈ h :: t := by rw [← hl]; exact hperm.mem_iff.mpr hc
      rcases List.mem_cons.mp hcm with rfl | hct
      · exact absurd hlt (lt_irrefl _)
      · have hs2 : List.Sorted laterFirst (h :: t) := by rw [← hl]; exact hsorted
        have hrel := List.rel_of_sorted_cons hs2 c hct
        unfold laterFirst at hrel
        omega

/-- C6: creating three projects A, B, C in that order (each from a
well-formed store) makes C — the row under the identity minted by the third
create — the first element of the listed sequence. -/
theorem listing_most_recent_first
    (cfg : Settings) (env : AwsEnv) (s : Store) (hWF : s.WF) (u : UserRec)
    (hu : u.isAuthenticated = true)
    (nA dA lA sdA edA bA stA prA : String) (actA : Option String)
    (nB dB lB sdB edB bB stB prB : String) (actB : Option String)
    (nC dC lC sdC edC bC stC prC : String) (actC : Option String)
    (sA sB sC : Store) (fxA fxB fxC : List Effect)
    (hA : project_create cfg env s u .post (fullForm nA dA lA sdA edA bA stA prA actA) none
      = .created sA fxA)
    (hB : project_create cfg env sA u .post (fullForm nB dB lB sdB edB bB stB prB actB) none
      = .created sB fxB)
    (hC : project_create cfg env sB u .post (fullForm nC dC lC sdC edC bC stC prC actC) none
      = .created sC fxC) :
    (project_list sC u).projectsOf = some (objectsAll sC)
    ∧ (objectsAll sC).head? = findProject sC sB.nextId
    ∧ (findProject sC sB.nextId).map Project.name = some nC := by
  simp only [project_create, hu, objectsCreate, fullForm, Bool.not_true,
    Bool.false_eq_true, if_false] at hA hB hC
  injection hA with hA1 hA2
  subst hA1
  injection hB with hB1 hB2
  subst hB1
  injection hC with hC1 hC2
  subst hC1
  dsimp only
  set pA : Project :=
    { id := s.nextId, name := nA, description := dA, location := lA, start_date := sdA,
      end_date := edA, budget := bA, status := stA, priority := prA, manager := u.id,
      document := none, created_at := s.clock, updated_at := s.clock } with hpA
  set pB : Project :=
    { id := s.nextId + 1, name := nB, description := dB, location := lB, start_date := sdB,
      end_date := edB, budget := bB, status := stB, priority := prB, manager := u.id,
      document := none, created_at := s.clock + 1, updated_at := s.clock + 1 } with hpB
  set pC : Project :=
    { id := s.nextId + 1 + 1, name := nC, description := dC, location := lC, start_date := sdC,
      end_date := edC, budget := bC, status := stC, priority := prC, manager := u.id,
      document := none, created_at := s.clock + 1 + 1, updated_at := s.clock + 1 + 1 } with hpC
  have hold2 : ∀ q ∈ (s.projects ++ [pA]) ++ [pB], q.id < s.nextId + 1 + 1 := by
    intro q hq
    rcases List.mem_append.mp hq with hq1 | hqB
    · rcases List.mem_append.mp hq1 with hq0 | hqA
      · have := (hWF q hq0).1
        omega
      · have hx := List.mem_singleton.mp hqA
        rw [hx]
        simp only [hpA]
        omega
    · have hx := List.mem_singleton.mp hqB
      rw [hx]
      simp only [hpB]
      omega
  have hf : List.find? (fun q => q.id = s.nextId + 1 + 1)
      ((((s.projects ++ [pA]) ++ [pB]) ++ [pC])) = some pC :=
    find?_fresh_row _ _ hold2 pC (by simp only [hpC])
  have hmax : ∀ q ∈ ((s.projects ++ [pA]) ++ [pB]) ++ [pC],
      q = pC ∨ q.created_at < pC.created_at := by
    intro q hq
    rcases List.mem_append.mp hq with hq1 | hqC
    · rcases List.mem_append.mp hq1 with hq2 | hqB
      · rcases List.mem_append.mp hq2 with hq0 | hqA
        · right
          have := (hWF q hq0).2.1
          simp only [hpC]
          omega
        · right
          have hx := List.mem_singleton.mp hqA
          rw [hx]
          simp only [hpA, hpC]
          omega
      · right
        have hx := List.mem_singleton.mp hqB
        rw [hx]
        simp only [hpB, hpC]
        omega
    · left
      exact List.mem_singleton.mp hqC
  have hhead := objectsAll_head_of_strict_max
    (Store.mk (((s.projects ++ [pA]) ++ [pB]) ++ [pC])
      (s.nextId + 1 + 1 + 1) (s.clock + 1 + 1 + 1)) pC (by simp) hmax
  refine ⟨by simp [project_list, hu, ListResult.projectsOf], ?_, ?_⟩
  · rw [hhead]
    simp only [findProject]
    rw [hf]
  · simp only [findProject]
    rw [hf]
    rfl

/-- C6 (witness): three concrete creations from the empty store; the listing
leads with the third project "C". -/
theorem listing_most_recent_first_witness :
    (project_list storeABC alice).projectsOf = some (objectsAll storeABC)
    ∧ (objectsAll storeABC).head? = findProject storeABC 2
    ∧ (findProject storeABC 2).map Project.name = some "C" :=
  listing_most_recent_first cfg0 envOkAws emptyStore (by simp [Store.WF, emptyStore]) alice rfl
    "A" "dA" "lA" "sdA" "edA" "1" "Planning" "Low" none
    "B" "dB" "lB" "sdB" "edB" "2" "Planning" "Low" none
    "C" "dC" "lC" "sdC" "edC" "3" "Planning" "Low" none
    (Store.mk [projA] 1 1) (Store.mk [projA, projB] 2 2) storeABC
    [Effect.cwActivity "CREATE" "A" "alice",
      Effect.sesEmail "alice@example.com" "New Construction Project Created: A"]
    [Effect.cwActivity "CREATE" "B" "alice",
      Effect.sesEmail "alice@example.com" "New Construction Project Created: B"]
    [Effect.cwActivity "CREATE" "C" "alice",
      Effect.sesEmail "alice@example.com" "New Construction Project Created: C"]
    rfl rfl rfl

end Construction
